import Mathlib

/-!
Verification development for the `code-agent-by-claude` pipeline
(`src/code_agent_by_claude/`): a shallow embedding of the event model
(`events.py`), the message translator (`message_processor.py`), the event
dispatcher and renderers (`stream_handler.py`), the orchestrator
(`orchestrator.py`), the coder run loop (`agents/coder.py`), and the
persisted stage artifacts (`agents/planner.py`, `agents/researcher.py`).

Modelling conventions:
* Python strings are Lean `String`s (sequences of code points, matching
  Python `len`/slicing semantics at the `List Char` level).
* JSON-serializable Python values (`dict[str, Any]` payloads, parsed JSON
  documents) are modelled by the `JValue` inductive; a Python `dict` with
  string keys is an ordered association list `Dict`.
* `async` callbacks are modelled as state transformers `σ → σ`; awaiting a
  callback to completion before continuing is sequential function
  application (`List.foldl`).
* Wall-clock timestamps (`time.time()` default factory) are abstracted: the
  clock value is an opaque `Nat` argument; nothing is proved about it.
* Code that can raise an uncaught Python exception is modelled in
  `Except String`, the error string naming the exception class.
-/

/-! ## JSON-ish values (`dict[str, Any]` payloads and parsed JSON files) -/

/-- A JSON-serializable Python value. -/
inductive JValue where
  | null
  | bool (b : Bool)
  | num (n : Int)
  | str (s : String)
  | arr (elems : List JValue)
  | obj (fields : List (String × JValue))

/-- A Python `dict[str, Any]` with string keys, as an ordered
association list (Python dicts preserve insertion order). -/
def Dict := List (String × JValue)

/-- Python `d.get(k)` for a dict: first binding of the key, if any. -/
def dget : Dict → String → Option JValue
  | [], _ => none
  | (k, v) :: rest, key => if k = key then some v else dget rest key

/-- Python `d.get(k, "")` followed by use as a string: returns the bound string,
and the default `""` when the key is absent or bound to a non-string
(non-string payloads are outside the typed model). -/
def dgetStr (d : Dict) (k : String) : String :=
  match dget d k with
  | some (.str s) => s
  | _ => ""

/-- Key containment test for a Python dict (`k in d`). -/
def hasKey (d : Dict) (k : String) : Bool :=
  d.any (fun kv => kv.1 = k)

/-! ## Event model (`events.py`) -/

/-- The `EventType` enum from `events.py`. -/
inductive EventType where
  | SESSION_INIT
  | SESSION_COMPLETE
  | PHASE_START
  | PHASE_END
  | TEXT_DELTA
  | TOOL_START
  | TOOL_RESULT
  | THINKING
  | PROGRESS
  | ERROR
deriving DecidableEq

/-- The `.value` string of each `EventType` member. -/
def EventType.value : EventType → String
  | .SESSION_INIT => "session_init"
  | .SESSION_COMPLETE => "session_complete"
  | .PHASE_START => "phase_start"
  | .PHASE_END => "phase_end"
  | .TEXT_DELTA => "text_delta"
  | .TOOL_START => "tool_start"
  | .TOOL_RESULT => "tool_result"
  | .THINKING => "thinking"
  | .PROGRESS => "progress"
  | .ERROR => "error"

/-- The `StreamEvent` base dataclass: `type`, `agent_name`, `session_id`,
`timestamp`, `data`. -/
structure BaseEvent where
  type : EventType
  agent_name : String := ""
  session_id : String := ""
  timestamp : Nat := 0
  data : Dict := []

/-- The `TextEvent` dataclass (base fields plus `text`). -/
structure TextEvent where
  type : EventType
  agent_name : String := ""
  session_id : String := ""
  timestamp : Nat := 0
  data : Dict := []
  text : String := ""

/-- The `ToolEvent` dataclass (base fields plus tool payload fields). -/
structure ToolEvent where
  type : EventType
  agent_name : String := ""
  session_id : String := ""
  timestamp : Nat := 0
  data : Dict := []
  tool_name : String := ""
  tool_input : Dict := []
  tool_result : String := ""
  tool_use_id : String := ""

/-- The `ThinkingEvent` dataclass (base fields plus `thinking`). -/
structure ThinkingEvent where
  type : EventType
  agent_name : String := ""
  session_id : String := ""
  timestamp : Nat := 0
  data : Dict := []
  thinking : String := ""

/-- The `PhaseEvent` dataclass (base fields plus `phase`). -/
structure PhaseEvent where
  type : EventType
  agent_name : String := ""
  session_id : String := ""
  timestamp : Nat := 0
  data : Dict := []
  phase : String := ""

/-- The `ProgressEvent` dataclass (base fields plus `message`). -/
structure ProgressEvent where
  type : EventType
  agent_name : String := ""
  session_id : String := ""
  timestamp : Nat := 0
  data : Dict := []
  message : String := ""

/-- Constructing a plain `StreamEvent(...)`: the base dataclass has no
`__post_init__`, so the passed `type` is kept as-is. -/
def mkBaseEvent (type : EventType) (agent_name session_id : String)
    (timestamp : Nat) (data : Dict) : BaseEvent :=
  { type, agent_name, session_id, timestamp, data }

/-- Constructing `TextEvent(...)`: `__post_init__` unconditionally sets
`self.type = EventType.TEXT_DELTA`, ignoring the passed value. -/
def mkTextEvent (_type : EventType) (agent_name session_id : String)
    (timestamp : Nat) (data : Dict) (text : String) : TextEvent :=
  { type := EventType.TEXT_DELTA, agent_name, session_id, timestamp, data, text }

/-- Constructing `ToolEvent(...)`: `__post_init__` replaces any `type`
outside `{TOOL_START, TOOL_RESULT}` with `TOOL_START`. -/
def mkToolEvent (type : EventType) (agent_name session_id : String)
    (timestamp : Nat) (data : Dict) (tool_name : String) (tool_input : Dict)
    (tool_result tool_use_id : String) : ToolEvent :=
  { type := if type = EventType.TOOL_START || type = EventType.TOOL_RESULT
      then type else EventType.TOOL_START,
    agent_name, session_id, timestamp, data,
    tool_name, tool_input, tool_result, tool_use_id }

/-- Constructing `ThinkingEvent(...)`: `__post_init__` unconditionally sets
`self.type = EventType.THINKING`. -/
def mkThinkingEvent (_type : EventType) (agent_name session_id : String)
    (timestamp : Nat) (data : Dict) (thinking : String) : ThinkingEvent :=
  { type := EventType.THINKING, agent_name, session_id, timestamp, data, thinking }

/-- Constructing `PhaseEvent(...)`: `__post_init__` replaces any `type`
outside `{PHASE_START, PHASE_END}` with `PHASE_START`. -/
def mkPhaseEvent (type : EventType) (agent_name session_id : String)
    (timestamp : Nat) (data : Dict) (phase : String) : PhaseEvent :=
  { type := if type = EventType.PHASE_START || type = EventType.PHASE_END
      then type else EventType.PHASE_START,
    agent_name, session_id, timestamp, data, phase }

/-- Constructing `ProgressEvent(...)`: `__post_init__` unconditionally sets
`self.type = EventType.PROGRESS`. -/
def mkProgressEvent (_type : EventType) (agent_name session_id : String)
    (timestamp : Nat) (data : Dict) (message : String) : ProgressEvent :=
  { type := EventType.PROGRESS, agent_name, session_id, timestamp, data, message }

/-- A runtime event value: one of the `StreamEvent` dataclass variants
(the Python class hierarchy as a closed sum). -/
inductive Event where
  | base (e : BaseEvent)
  | text (e : TextEvent)
  | tool (e : ToolEvent)
  | thinking (e : ThinkingEvent)
  | phase (e : PhaseEvent)
  | progress (e : ProgressEvent)

/-- Projection `event.type` for any event variant. -/
def Event.type : Event → EventType
  | .base e => e.type
  | .text e => e.type
  | .tool e => e.type
  | .thinking e => e.type
  | .phase e => e.type
  | .progress e => e.type

/-- Projection `event.agent_name` for any event variant. -/
def Event.agent_name : Event → String
  | .base e => e.agent_name
  | .text e => e.agent_name
  | .tool e => e.agent_name
  | .thinking e => e.agent_name
  | .phase e => e.agent_name
  | .progress e => e.agent_name

/-- Projection `event.timestamp` for any event variant. -/
def Event.timestamp : Event → Nat
  | .base e => e.timestamp
  | .text e => e.timestamp
  | .tool e => e.timestamp
  | .thinking e => e.timestamp
  | .phase e => e.timestamp
  | .progress e => e.timestamp

/-- Projection `event.data` for any event variant. -/
def Event.data : Event → Dict
  | .base e => e.data
  | .text e => e.data
  | .tool e => e.data
  | .thinking e => e.data
  | .phase e => e.data
  | .progress e => e.data

/-! ## Message translator (`message_processor.py`) -/

/-- A text-bearing part of a tool result's content list: the code keeps
parts that have a `.text` attribute and ignores every other part. -/
inductive ResultPart where
  | textPart (s : String)
  | otherPart

/-- The `.text` of a part, when it has one. -/
def ResultPart.textOf : ResultPart → Option String
  | .textPart s => some s
  | .otherPart => none

/-- The `content` attribute of a `ToolResultBlock`: a plain string, an
ordered list of parts, or some other object (neither `str` nor `list`). -/
inductive ToolContent where
  | str (s : String)
  | parts (l : List ResultPart)
  | otherContent

/-- Python `sep.join(parts)`. -/
def joinSep (sep : String) : List String → String
  | [] => ""
  | [x] => x
  | x :: xs => x ++ sep ++ joinSep sep xs

/-- Content flattening for tool results (`message_processor.py` lines
92-101): a string verbatim; a list joined with `"\n"` over the `.text` of
its text-bearing parts; anything else gives the initial `""`. -/
def flattenToolContent : ToolContent → String
  | .str s => s
  | .parts l => joinSep "\n" (l.filterMap ResultPart.textOf)
  | .otherContent => ""

/-- One content block of an `AssistantMessage`, as the closed set of
shapes the duck-typed `hasattr` chain in `_process_assistant`
distinguishes: text blocks (`.text`), tool-use blocks (`.name`/`.input`),
tool-result blocks (`.content`/`.tool_use_id`), thinking blocks
(`.thinking`). -/
inductive ContentBlock where
  | textBlock (text : String)
  | toolUse (name : String) (input : Dict) (id : String)
  | toolResult (content : ToolContent) (tool_use_id : String)
  | thinkingBlock (thinking : String)

/-- One raw SDK message, as the closed set of shapes
`MessageProcessor.process` distinguishes: `SystemMessage`,
`AssistantMessage`, `ResultMessage`, an object with an `.event` attribute
(SDK partial `StreamEvent`), or anything else. -/
inductive Message where
  | system (subtype : String) (data : Dict)
  | assistant (content : List ContentBlock)
  | result (subtype : String) (result : String)
  | streamEvent (event : JValue)
  | unknown

/-- Translation of `MessageProcessor._process_assistant`: translate the content blocks of
one `AssistantMessage` into the events emitted (in emission order) through
the handler.  The wall clock is abstracted as `0`. -/
def process_assistant (agent_name session_id : String) :
    List ContentBlock → List Event
  | [] => []
  | block :: rest =>
    (match block with
     | .textBlock t =>
       [Event.text (mkTextEvent EventType.TEXT_DELTA agent_name session_id 0 [] t)]
     | .toolUse nm inp id =>
       [Event.tool (mkToolEvent EventType.TOOL_START agent_name session_id 0 []
          nm inp "" id)]
     | .toolResult content id =>
       [Event.tool (mkToolEvent EventType.TOOL_RESULT agent_name session_id 0 []
          "" [] (flattenToolContent content) id)]
     | .thinkingBlock th =>
       [Event.thinking (mkThinkingEvent EventType.THINKING agent_name session_id 0 [] th)])
    ++ process_assistant agent_name session_id rest

/-- Translation of `MessageProcessor._process_stream_event`: translate a raw SDK partial
`StreamEvent`'s `.event` payload.  `raw.get("delta", {}).get(...)` and
`raw.get("content_block", {}).get(...)` raise `AttributeError` when the
bound value is not a dict; that uncaught-exception path is the `Except`
error case. -/
def process_stream_event (agent_name session_id : String) (raw : JValue) :
    Except String (List Event) :=
  match raw with
  | .obj d =>
    let event_type := dgetStr d "type"
    if event_type = "content_block_delta" then
      match (dget d "delta").getD (.obj []) with
      | .obj delta =>
        let delta_type := dgetStr delta "type"
        if delta_type = "text_delta" then
          .ok [Event.text (mkTextEvent EventType.TEXT_DELTA agent_name session_id 0 []
            (dgetStr delta "text"))]
        else if delta_type = "thinking_delta" then
          .ok [Event.thinking (mkThinkingEvent EventType.THINKING agent_name session_id 0 []
            (dgetStr delta "thinking"))]
        else if delta_type = "input_json_delta" then
          .ok [Event.base (mkBaseEvent EventType.PROGRESS agent_name session_id 0 delta)]
        else
          .ok []
      | _ => .error "AttributeError"
    else if event_type = "content_block_start" then
      match (dget d "content_block").getD (.obj []) with
      | .obj block =>
        if dgetStr block "type" = "tool_use" then
          .ok [Event.tool (mkToolEvent EventType.TOOL_START agent_name session_id 0 []
            (dgetStr block "name") [] "" (dgetStr block "id"))]
        else
          .ok []
      | _ => .error "AttributeError"
    else
      .ok []
  | _ => .ok []

/-- Translation of `MessageProcessor.process`: dispatch one raw SDK message to the
matching `_process_*` translator, collecting the emitted events. -/
def process (agent_name session_id : String) :
    Message → Except String (List Event)
  | .system subtype data =>
    .ok (if subtype = "init" then
      [Event.progress (mkProgressEvent EventType.PROGRESS agent_name session_id 0
        data "Session initialized")]
    else [])
  | .assistant content => .ok (process_assistant agent_name session_id content)
  | .result subtype r =>
    .ok (if subtype = "success" then
      [Event.text (mkTextEvent EventType.TEXT_DELTA agent_name session_id 0 [] r)]
    else [])
  | .streamEvent raw => process_stream_event agent_name session_id raw
  | .unknown => .ok []

/-- The texts of the `TextDelta` events in an emitted event list. -/
def textDeltaTexts (evs : List Event) : List String :=
  evs.filterMap fun e =>
    match e with
    | .text te => if te.type = EventType.TEXT_DELTA then some te.text else none
    | _ => none

/-- The `tool_result` payloads of the `ToolResult` events in an emitted
event list. -/
def toolResultTexts (evs : List Event) : List String :=
  evs.filterMap fun e =>
    match e with
    | .tool te => if te.type = EventType.TOOL_RESULT then some te.tool_result else none
    | _ => none

/-! ## Event dispatcher and renderers (`stream_handler.py`) -/

/-- An async event callback, modelled as a state transformer: awaiting the
callback to completion yields the updated state. -/
def Callback (σ : Type) := Event → σ → σ

/-- The `StreamHandler`: per-kind callback registry (the `defaultdict(list)`
as a total function with empty default) plus the global callback list. -/
structure StreamHandler (σ : Type) where
  callbacks : EventType → List (Callback σ)
  global_callbacks : List (Callback σ)

/-- Constructor `StreamHandler.__init__`: both registries start empty. -/
def StreamHandler.new {σ : Type} : StreamHandler σ :=
  { callbacks := fun _ => [], global_callbacks := [] }

/-- Registration `StreamHandler.on`: append a callback to the list for one event type. -/
def StreamHandler.on {σ : Type} (h : StreamHandler σ) (event_type : EventType)
    (callback : Callback σ) : StreamHandler σ :=
  { h with callbacks := fun t =>
      if t = event_type then h.callbacks event_type ++ [callback] else h.callbacks t }

/-- Registration `StreamHandler.on_all`: append a callback to the global list. -/
def StreamHandler.on_all {σ : Type} (h : StreamHandler σ)
    (callback : Callback σ) : StreamHandler σ :=
  { h with global_callbacks := h.global_callbacks ++ [callback] }

/-- Dispatch `StreamHandler.emit`: await every global callback in order, then every
callback registered for the event's type in order, threading the state
sequentially (each `await cb(event)` completes before the next starts, and
`emit` returns only after the final one). -/
def StreamHandler.emit {σ : Type} (h : StreamHandler σ) (event : Event)
    (s : σ) : σ :=
  (h.callbacks event.type).foldl (fun st cb => cb event st)
    (h.global_callbacks.foldl (fun st cb => cb event st) s)

/-- One registration call made against a fresh handler. -/
inductive RegOp (σ : Type) where
  | onType (event_type : EventType) (callback : Callback σ)
  | onAll (callback : Callback σ)

/-- Apply one registration call. -/
def regStep {σ : Type} (h : StreamHandler σ) : RegOp σ → StreamHandler σ
  | .onType t cb => h.on t cb
  | .onAll cb => h.on_all cb

/-- Build a handler from a sequence of registration calls, oldest first. -/
def buildHandler {σ : Type} (regs : List (RegOp σ)) : StreamHandler σ :=
  regs.foldl regStep StreamHandler.new

/-- Specification-side: the globally-registered callbacks of a
registration sequence, in registration order. -/
def globalsOf {σ : Type} (regs : List (RegOp σ)) : List (Callback σ) :=
  regs.filterMap fun r =>
    match r with
    | .onAll cb => some cb
    | .onType _ _ => none

/-- Specification-side: the callbacks registered for one event type, in
registration order. -/
def kindOf {σ : Type} (regs : List (RegOp σ)) (t : EventType) : List (Callback σ) :=
  regs.filterMap fun r =>
    match r with
    | .onType t' cb => if t' = t then some cb else none
    | .onAll _ => none

/-- One line written to the primary output stream by the JSON renderer,
with its flush flag. -/
structure OutLine where
  line : List (String × JValue)
  flushed : Bool

/-- The JSON object `DefaultStreamRenderer._handle_json` builds for one event:
`type`/`agent`/`timestamp` first (dict insertion order), then the
payload keys chosen by the `isinstance` chain; `input`/`result` are set
only when truthy (non-empty). -/
def jsonFields (e : Event) : List (String × JValue) :=
  [("type", .str e.type.value),
   ("agent", .str e.agent_name),
   ("timestamp", .num e.timestamp)] ++
  (match e with
   | .text te => [("text", .str te.text)]
   | .tool te =>
     [("tool", .str te.tool_name)] ++
     (if te.tool_input.isEmpty then [] else [("input", .obj te.tool_input)]) ++
     (if te.tool_result.isEmpty then [] else [("result", .str te.tool_result)])
   | .thinking te => [("thinking", .str te.thinking)]
   | .phase pe => [("phase", .str pe.phase)]
   | .progress pe => [("data", .obj pe.data)]
   | .base be => [("data", .obj be.data)])

/-- Translation of `DefaultStreamRenderer._handle_json`: serialize the event as one JSON
object, print it as one line and flush. -/
def handle_json (e : Event) : List OutLine :=
  [{ line := jsonFields e, flushed := true }]

/-! ## Stage artifacts (`agents/planner.py`, `agents/researcher.py`,
`agents/coder.py`) -/

/-- The `Plan` dataclass from `agents/planner.py`. -/
structure Plan where
  task_description : String
  requirements : List String := []
  files_to_create : List String := []
  files_to_modify : List String := []
  implementation_steps : List String := []
  dependencies : List String := []
  notes : String := ""

/-- The `ResearchResult` dataclass from `agents/researcher.py`; `findings` is
a `list[dict]`. -/
structure ResearchResult where
  original_requirements : String
  requirements_analysis : List String := []
  research_agenda : List String := []
  findings : List Dict := []
  technical_context : List String := []
  recommendations : List String := []
  notes : String := ""

/-- The `CodeResult` dataclass from `agents/coder.py`. -/
structure CodeResult where
  files_created : List String := []
  files_modified : List String := []
  summary : String := ""
  success : Bool := true
  errors : List String := []

/-- Python `"\n".join(f"- {x}" for x in l)`. -/
def bulleted (l : List String) : String :=
  joinSep "\n" (l.map (fun r => "- " ++ r))

/-- Python `"\n".join(f"{i + 1}. {x}" for i, x in enumerate(l))`. -/
def numbered (l : List String) : String :=
  joinSep "\n" (l.enum.map (fun ix => toString (ix.1 + 1) ++ ". " ++ ix.2))

/-- Translation of `Plan.to_prompt`. -/
def Plan.to_prompt (p : Plan) : String :=
  let secs := ["# Implementation Plan\n\n## Task\n" ++ p.task_description]
  let secs := secs ++ (if p.requirements.isEmpty then [] else
    ["## Requirements\n" ++ bulleted p.requirements])
  let secs := secs ++ (if p.files_to_create.isEmpty then [] else
    ["## Files to Create\n" ++ bulleted p.files_to_create])
  let secs := secs ++ (if p.files_to_modify.isEmpty then [] else
    ["## Files to Modify\n" ++ bulleted p.files_to_modify])
  let secs := secs ++ (if p.implementation_steps.isEmpty then [] else
    ["## Implementation Steps\n" ++ numbered p.implementation_steps])
  let secs := secs ++ (if p.dependencies.isEmpty then [] else
    ["## Dependencies\n" ++ bulleted p.dependencies])
  let secs := secs ++ (if p.notes.isEmpty then [] else
    ["## Notes\n" ++ p.notes])
  joinSep "\n\n" secs

/-- One finding's markdown section in `ResearchResult.to_prompt`
(string-typed `topic`/`summary`/`sources` entries; other value types are
outside the typed model). -/
def findingSection (d : Dict) : String :=
  let topic := match dget d "topic" with
    | some (.str s) => s
    | _ => "Unknown"
  let summary := dgetStr d "summary"
  let sources := match dget d "sources" with
    | some (.arr l) => l.filterMap (fun v =>
        match v with
        | .str s => some s
        | _ => none)
    | _ => []
  let text := "### " ++ topic ++ "\n" ++ summary
  if sources.isEmpty then text
  else text ++ "\n\nSources:\n" ++ bulleted sources

/-- Translation of `ResearchResult.to_prompt`. -/
def ResearchResult.to_prompt (r : ResearchResult) : String :=
  let secs := ["# Research Findings\n\n## Original Requirements\n" ++
    r.original_requirements]
  let secs := secs ++ (if r.requirements_analysis.isEmpty then [] else
    ["## Requirements Analysis\n" ++ bulleted r.requirements_analysis])
  let secs := secs ++ (if r.research_agenda.isEmpty then [] else
    ["## Research Agenda\n" ++ numbered r.research_agenda])
  let secs := secs ++ (if r.findings.isEmpty then [] else
    ["## Research Findings\n" ++ joinSep "\n\n" (r.findings.map findingSection)])
  let secs := secs ++ (if r.technical_context.isEmpty then [] else
    ["## Technical Context\n" ++ bulleted r.technical_context])
  let secs := secs ++ (if r.recommendations.isEmpty then [] else
    ["## Recommendations\n" ++ bulleted r.recommendations])
  let secs := secs ++ (if r.notes.isEmpty then [] else
    ["## Notes\n" ++ r.notes])
  joinSep "\n\n" secs

/-- Encoding `dataclasses.asdict` of a `Plan`, as the JSON document `json.dump`
writes (fields in declaration order). -/
def planToJ (p : Plan) : JValue :=
  .obj [("task_description", .str p.task_description),
        ("requirements", .arr (p.requirements.map .str)),
        ("files_to_create", .arr (p.files_to_create.map .str)),
        ("files_to_modify", .arr (p.files_to_modify.map .str)),
        ("implementation_steps", .arr (p.implementation_steps.map .str)),
        ("dependencies", .arr (p.dependencies.map .str)),
        ("notes", .str p.notes)]

/-- Encoding `dataclasses.asdict` of a `ResearchResult`. -/
def researchToJ (r : ResearchResult) : JValue :=
  .obj [("original_requirements", .str r.original_requirements),
        ("requirements_analysis", .arr (r.requirements_analysis.map .str)),
        ("research_agenda", .arr (r.research_agenda.map .str)),
        ("findings", .arr (r.findings.map .obj)),
        ("technical_context", .arr (r.technical_context.map .str)),
        ("recommendations", .arr (r.recommendations.map .str)),
        ("notes", .str r.notes)]

/-- Decode a JSON array of strings. -/
def decodeStrListAux : List JValue → Option (List String)
  | [] => some []
  | .str s :: rest => (decodeStrListAux rest).map (s :: ·)
  | _ => none

/-- Decode a JSON value expected to be an array of strings. -/
def decodeStrList : JValue → Option (List String)
  | .arr l => decodeStrListAux l
  | _ => none

/-- Decode a JSON array of objects. -/
def decodeDictListAux : List JValue → Option (List Dict)
  | [] => some []
  | .obj d :: rest => (decodeDictListAux rest).map (d :: ·)
  | _ => none

/-- Decode a JSON value expected to be an array of objects. -/
def decodeDictList : JValue → Option (List Dict)
  | .arr l => decodeDictListAux l
  | _ => none

/-- Decode a JSON value expected to be a string. -/
def asStr : JValue → Option String
  | .str s => some s
  | _ => none

/-- Keyword-argument lookup: absent key falls back to the dataclass field
default; a present key must decode (values of unexpected JSON type are
outside the typed model). -/
def kwField {α : Type} (kvs : Dict) (k : String) (dec : JValue → Option α)
    (dflt : α) : Option α :=
  match dget kvs k with
  | none => some dflt
  | some v => dec v

/-- Keyword construction `Plan(**data)` for a JSON-loaded `data`: every key must name a field
(an unexpected keyword raises `TypeError`), `task_description` is
required, every other field defaults. -/
def decodePlan : JValue → Option Plan
  | .obj kvs =>
    if kvs.all (fun kv => kv.1 ∈ ["task_description", "requirements",
        "files_to_create", "files_to_modify", "implementation_steps",
        "dependencies", "notes"]) then
      (dget kvs "task_description").bind asStr |>.bind fun td =>
      kwField kvs "requirements" decodeStrList [] |>.bind fun reqs =>
      kwField kvs "files_to_create" decodeStrList [] |>.bind fun fc =>
      kwField kvs "files_to_modify" decodeStrList [] |>.bind fun fm =>
      kwField kvs "implementation_steps" decodeStrList [] |>.bind fun steps =>
      kwField kvs "dependencies" decodeStrList [] |>.bind fun deps =>
      kwField kvs "notes" asStr "" |>.bind fun notes =>
      some ⟨td, reqs, fc, fm, steps, deps, notes⟩
    else none
  | _ => none

/-- Keyword construction `ResearchResult(**data)` for a JSON-loaded `data`. -/
def decodeResearch : JValue → Option ResearchResult
  | .obj kvs =>
    if kvs.all (fun kv => kv.1 ∈ ["original_requirements",
        "requirements_analysis", "research_agenda", "findings",
        "technical_context", "recommendations", "notes"]) then
      (dget kvs "original_requirements").bind asStr |>.bind fun oreq =>
      kwField kvs "requirements_analysis" decodeStrList [] |>.bind fun ra =>
      kwField kvs "research_agenda" decodeStrList [] |>.bind fun ag =>
      kwField kvs "findings" decodeDictList [] |>.bind fun fi =>
      kwField kvs "technical_context" decodeStrList [] |>.bind fun tc =>
      kwField kvs "recommendations" decodeStrList [] |>.bind fun rec =>
      kwField kvs "notes" asStr "" |>.bind fun notes =>
      some ⟨oreq, ra, ag, fi, tc, rec, notes⟩
    else none
  | _ => none

/-- Content of one file in the modelled filesystem: a JSON document (the
parsed form of what `json.dump` wrote) or plain text. -/
inductive FileContent where
  | jsonDoc (v : JValue)
  | textDoc (s : String)

/-- The filesystem: a partial map from path strings to file contents. -/
def FS := String → Option FileContent

/-- Write one file. -/
def fsWrite (fs : FS) (path : String) (c : FileContent) : FS :=
  fun q => if q = path then some c else fs q

/-- Translation of `Plan.save_to_dir`: write `plan.json` (the `asdict` document) then
`plan.md` (the prompt rendering) under the directory. -/
def Plan.save_to_dir (p : Plan) (plans_dir : String) (fs : FS) : FS :=
  fsWrite (fsWrite fs (plans_dir ++ "/plan.json") (.jsonDoc (planToJ p)))
    (plans_dir ++ "/plan.md") (.textDoc p.to_prompt)

/-- Translation of `Plan.load_from_dir`: read `plan.json` and build `Plan(**data)`.
`none` covers every Python-error outcome (missing file, non-JSON content,
keyword mismatch). -/
def Plan.load_from_dir (plans_dir : String) (fs : FS) : Option Plan :=
  match fs (plans_dir ++ "/plan.json") with
  | some (.jsonDoc v) => decodePlan v
  | _ => none

/-- Translation of `ResearchResult.save_to_dir`: write `research.json` then
`research.md`. -/
def ResearchResult.save_to_dir (r : ResearchResult) (research_dir : String)
    (fs : FS) : FS :=
  fsWrite (fsWrite fs (research_dir ++ "/research.json") (.jsonDoc (researchToJ r)))
    (research_dir ++ "/research.md") (.textDoc r.to_prompt)

/-- Translation of `ResearchResult.load_from_dir`: read `research.json` and build
`ResearchResult(**data)`. -/
def ResearchResult.load_from_dir (research_dir : String) (fs : FS) :
    Option ResearchResult :=
  match fs (research_dir ++ "/research.json") with
  | some (.jsonDoc v) => decodeResearch v
  | _ => none

/-! ## Orchestrator and tool-server config (`orchestrator.py`) -/

/-- Recursion core of the `re.sub(r"\\$\\{([^}]+)\\}", …)` scanner, with a
structural fuel argument (always called with fuel at least the list
length, so the fuel-exhausted case is unreachable).  At `"${"` the scanner
looks for the first `'}'`: if one exists and the captured name before it
is non-empty, the whole `"${name}"` is replaced by the environment value
of `name` (missing variables give `""`) and scanning continues after the
`'}'`; otherwise (`"${}"`, or no `'}'` at all, where no later match can
start either) the characters are copied. -/
def expandGo (env : String → Option String) : Nat → List Char → List Char
  | 0, l => l
  | _ + 1, [] => []
  | fuel + 1, c :: rest =>
    if c = '$' then
      match rest with
      | c2 :: rest2 =>
        if c2 = '{' then
          match rest2.dropWhile (· ≠ '}') with
          | _ :: tail =>
            let name := rest2.takeWhile (· ≠ '}')
            if name.isEmpty then c :: c2 :: '}' :: expandGo env fuel tail
            else ((env (String.mk name)).getD "").data ++ expandGo env fuel tail
          | [] => c :: c2 :: rest2
        else c :: expandGo env fuel rest
      | [] => c :: expandGo env fuel rest
    else c :: expandGo env fuel rest

/-- The placeholder scanner over a whole character list. -/
def expandChars (env : String → Option String) (l : List Char) : List Char :=
  expandGo env l.length l

/-- Translation of `_expand_env_vars` from `orchestrator.py`.  The Python fast-path guard
(`"${" in value`) returns the value unchanged exactly when the scanner
would copy it verbatim, so it is behavior-neutral. -/
def expand_env_vars (env : String → Option String) (value : String) : String :=
  String.mk (expandChars env value.data)

/-- The observable content of `.mcp.json` at load time: absent, a file on
which `open`/`json.load` raised (`OSError`/`JSONDecodeError`), or a
successfully parsed JSON document. -/
inductive McpFile where
  | missing
  | malformed
  | parsed (doc : JValue)

/-- Helper `_expand_env_vars` applied to a JSON value: only strings are expanded
(the `isinstance(value, str)` guard returns everything else unchanged). -/
def expandJ (env : String → Option String) : JValue → JValue
  | .str s => .str (expand_env_vars env s)
  | v => v

/-- Comprehension `\x7bk: _expand_env_vars(v) for k, v in m.items()\x7d`: requires a dict
(`.items()` on anything else raises `AttributeError`). -/
def expandStrMap (env : String → Option String) : JValue → Except String JValue
  | .obj m => .ok (.obj (m.map (fun kv => (kv.1, expandJ env kv.2))))
  | _ => .error "AttributeError"

/-- Assignment to an existing key of a Python dict. -/
def dset (d : Dict) (k : String) (v : JValue) : Dict :=
  d.map (fun kv => if kv.1 = k then (k, v) else kv)

/-- Substring containment over character lists (Python `needle in s`). -/
def subList (needle : List Char) : List Char → Bool
  | [] => needle.isEmpty
  | c :: rest => needle.isPrefixOf (c :: rest) || subList needle rest

/-- Processing of one server entry in `load_mcp_config`'s loop: expand the
`env` and `headers` sub-maps when present.  Python `"env" in srv` is key
containment for dicts, substring/membership for strings and lists (where a
hit makes the following subscript raise `TypeError`), and raises
`TypeError` for non-container values. -/
def expandServer (env : String → Option String) : JValue → Except String JValue
  | .obj d =>
    (match dget d "env" with
     | some v => (expandStrMap env v).map (fun v' => dset d "env" v')
     | none => .ok d).bind fun d1 =>
    (match dget d1 "headers" with
     | some v => (expandStrMap env v).map (fun v' => dset d1 "headers" v')
     | none => .ok d1).map fun d2 => .obj d2
  | .str s =>
    if subList "env".data s.data || subList "headers".data s.data then
      .error "TypeError"
    else .ok (.str s)
  | .arr l =>
    if l.any (fun v => match v with | .str s => s = "env" | _ => false) ||
       l.any (fun v => match v with | .str s => s = "headers" | _ => false) then
      .error "TypeError"
    else .ok (.arr l)
  | _ => .error "TypeError"

/-- Result of `load_mcp_config`: the server map and whether the
"Could not load .mcp.json" warning was printed. -/
structure McpLoad where
  servers : List (String × JValue)
  warned : Bool

/-- Translation of `load_mcp_config` from `orchestrator.py`.  The `except` clause catches
only `JSONDecodeError` and `OSError`; attribute/type errors on
successfully parsed JSON of unexpected shape propagate (the `Except.error`
case). -/
def load_mcp_config (env : String → Option String) :
    McpFile → Except String McpLoad
  | .missing => .ok ⟨[], false⟩
  | .malformed => .ok ⟨[], true⟩
  | .parsed doc =>
    match doc with
    | .obj config =>
      match (dget config "mcpServers").getD (.obj []) with
      | .obj servers =>
        (servers.mapM (fun kv =>
          (expandServer env kv.2).map (fun srv' => (kv.1, srv')))).map
          (fun out => ⟨out, false⟩)
      | _ => .error "AttributeError"
    | _ => .error "AttributeError"

/-- The `TaskResult` dataclass from `orchestrator.py`. -/
structure TaskResult where
  task : String
  research_result : Option ResearchResult
  plan : Option Plan
  code_result : Option CodeResult
  success : Bool
  error : Option String := none

/-- Python truthiness of an optional string (`if task:`). -/
def pyTruthy : Option String → Bool
  | none => false
  | some s => !s.isEmpty

/-- Translation of `Orchestrator._build_task_desc`. -/
def build_task_desc (task issue_url : Option String) : Option String :=
  if pyTruthy issue_url && pyTruthy task then
    some ("Implement GitHub issue: " ++ issue_url.getD "" ++
      "\n\nAdditional context: " ++ task.getD "")
  else if pyTruthy issue_url then
    some ("Implement GitHub issue: " ++ issue_url.getD "")
  else if pyTruthy task then task
  else none

/-- Translation of `Orchestrator.run_task`, with each agent's `run` coroutine abstracted
as a function returning its artifact or `None`.  The returned triple is
the `TaskResult`, the stages actually invoked in order (instrumentation
for the skip-remaining-stages property), and the filesystem after the
orchestrator's `save_to_dir` calls.  Verbose printing and phase-event
emission are elided (they do not affect control flow or the result). -/
def run_task (working_dir : String) (fs : FS) (task issue_url : Option String)
    (researcher_run : String → Option ResearchResult)
    (planner_run : String → Option Plan)
    (coder_run : Unit → Option CodeResult) :
    TaskResult × List String × FS :=
  let research_dir := working_dir ++ "/research"
  let plans_dir := working_dir ++ "/plans"
  match build_task_desc task issue_url with
  | none =>
    (⟨"", none, none, none, false, some "No task or issue URL provided"⟩, [], fs)
  | some td =>
    match researcher_run td with
    | none =>
      (⟨td, none, none, none, false, some "Researcher agent failed"⟩,
       ["researcher"], fs)
    | some rr =>
      let fs1 := rr.save_to_dir research_dir fs
      match planner_run td with
      | none =>
        (⟨td, some rr, none, none, false, some "Planner agent failed"⟩,
         ["researcher", "planner"], fs1)
      | some plan =>
        let fs2 := plan.save_to_dir plans_dir fs1
        let code_result := coder_run ()
        (⟨td, some rr, some plan, code_result,
          (match code_result with | some c => c.success | none => false),
          none⟩,
         ["researcher", "planner", "coder"], fs2)

/-! ## Coder run loop (`agents/coder.py` lines 148-172) -/

/-- Accumulator `full`: the concatenation of the `.text` of the text-bearing blocks of
one `AssistantMessage` (`getattr(blk, "text", None)`). -/
def fullText (blocks : List ContentBlock) : String :=
  blocks.foldl (fun full b =>
    match b with
    | .textBlock t => full ++ t
    | _ => full) ""

/-- Python slicing `s[n:]` (by code points). -/
def strDrop (s : String) (n : Nat) : String := String.mk (s.data.drop n)

/-- The coder loop's mutable locals: the cursor `prev_text_len`, the
suffix deltas it computes (printed when verbose without a stream handler),
and `result_text`. -/
structure CoderLoopState where
  prev_text_len : Nat
  printed_deltas : List String
  result_text : String

/-- One `AssistantMessage` iteration of `CoderAgent.run`'s loop: reset the
cursor when the text got shorter, then compute and record the suffix delta
when the text grew. -/
def coderStep (st : CoderLoopState) (content : List ContentBlock) :
    CoderLoopState :=
  let full := fullText content
  let prev := if full.length < st.prev_text_len then 0 else st.prev_text_len
  if prev < full.length then
    { prev_text_len := full.length,
      printed_deltas := st.printed_deltas ++ [strDrop full prev],
      result_text := full }
  else { st with prev_text_len := prev }

/-- The coder loop over a sequence of `AssistantMessage` contents. -/
def coderRun (msgs : List (List ContentBlock)) : CoderLoopState :=
  msgs.foldl coderStep ⟨0, [], ""⟩

/-- Concatenation of a list of strings. -/
def strJoin : List String → String
  | [] => ""
  | x :: xs => x ++ strJoin xs

/-! ## Specification-side definitions used by the claims -/

/-- A raw message shape the translator does not recognize: not one of the
known message variants, and for partial `StreamEvent`s, no known
`event["type"]` (`content_block_delta` / `content_block_start`) — including
an `.event` payload that is not a dict at all. -/
def unrecognizedShape : Message → Bool
  | .unknown => true
  | .streamEvent (.obj d) =>
    !(dgetStr d "type" = "content_block_delta" ||
      dgetStr d "type" = "content_block_start")
  | .streamEvent _ => true
  | _ => false

/-- Specification-side payload keys of one JSON-lines record (amended
§4.3 contract): `text` for text-delta events; for tool events `tool`
always, `input` only when the tool input is non-empty and `result` only
when the tool result is non-empty; `thinking` for thinking events;
`phase` for phase events; a catch-all `data` for anything else. -/
def payloadSpec (e : Event) : List (String × JValue) :=
  match e with
  | .text te => [("text", .str te.text)]
  | .tool te =>
    [("tool", .str te.tool_name)] ++
    (match te.tool_input with
     | [] => []
     | inp => [("input", .obj inp)]) ++
    (if te.tool_result = "" then [] else [("result", .str te.tool_result)])
  | .thinking te => [("thinking", .str te.thinking)]
  | .phase pe => [("phase", .str pe.phase)]
  | e => [("data", .obj e.data)]

/-- The empty filesystem. -/
def emptyFS : FS := fun _ => none

/-- The prefix-extension order on reported full texts (each full text
extends the previous one). -/
def PrefixExt (a b : String) : Prop := a.data <+: b.data

/-! ## Helper lemmas -/

theorem strData_ext {s t : String} (h : s.data = t.data) : s = t := by
  cases s; cases t; exact congrArg String.mk h

theorem strDrop_data (s : String) (n : Nat) :
    (strDrop s n).data = s.data.drop n := rfl

theorem strDrop_zero (s : String) : strDrop s 0 = s := by
  apply strData_ext
  simp [strDrop]

theorem strDrop_length_self (s : String) : strDrop s s.length = "" := by
  apply strData_ext
  show s.data.drop s.data.length = _
  simp

theorem strDrop_of_data_append {p f : String} {suf : List Char}
    (h : f.data = p.data ++ suf) : strDrop f p.length = String.mk suf := by
  apply strData_ext
  show f.data.drop p.data.length = suf
  rw [h]
  exact List.drop_left p.data suf

theorem strJoin_append_one (l : List String) (x : String) :
    strJoin (l ++ [x]) = strJoin l ++ x := by
  induction l with
  | nil => simp [strJoin, String.append_empty, String.empty_append]
  | cons y ys ih => simp [strJoin, ih, String.append_assoc]

theorem chain_pfx_getLastD : ∀ (l : List String) (x : String),
    List.Chain' PrefixExt (x :: l) → x.data <+: (l.getLastD x).data := by
  intro l
  induction l with
  | nil => intro x _; exact List.prefix_refl _
  | cons y rest ih =>
    intro x h
    rw [List.chain'_cons] at h
    rw [List.getLastD_cons]
    exact h.1.trans (ih y h.2)

theorem strDrop_pfx_split {p f L : String} {suf : List Char}
    (hf : f.data = p.data ++ suf) (hL : f.data <+: L.data) :
    strDrop L p.length = String.mk suf ++ strDrop L f.length := by
  obtain ⟨u, hu⟩ := hL
  apply strData_ext
  rw [String.data_append, strDrop_data, strDrop_data]
  show L.data.drop p.data.length = suf ++ L.data.drop f.data.length
  rw [← hu]
  conv_lhs => rw [hf, List.append_assoc, List.drop_left]
  rw [List.drop_left]

/-! ## C10: event constructor type coercion (`__post_init__`) -/

/-- C10 (confirmed): every constructed `TextEvent` has type `TEXT_DELTA`
and every constructed `ThinkingEvent` has type `THINKING`, regardless of
the `type` passed to the constructor; every constructed `ToolEvent` has
type in `{TOOL_START, TOOL_RESULT}`, any other passed value being replaced
by `TOOL_START`; and every constructed `PhaseEvent` has type in
`{PHASE_START, PHASE_END}`, any other passed value being replaced by
`PHASE_START`. -/
theorem c10_event_type_coercion :
    (∀ t a s ts d x, (mkTextEvent t a s ts d x).type = EventType.TEXT_DELTA) ∧
    (∀ t a s ts d x, (mkThinkingEvent t a s ts d x).type = EventType.THINKING) ∧
    (∀ t a s ts d nm inp res id,
      ((mkToolEvent t a s ts d nm inp res id).type = EventType.TOOL_START ∨
       (mkToolEvent t a s ts d nm inp res id).type = EventType.TOOL_RESULT) ∧
      (mkToolEvent t a s ts d nm inp res id).type =
        (if t = EventType.TOOL_START || t = EventType.TOOL_RESULT then t
         else EventType.TOOL_START)) ∧
    (∀ t a s ts d ph,
      ((mkPhaseEvent t a s ts d ph).type = EventType.PHASE_START ∨
       (mkPhaseEvent t a s ts d ph).type = EventType.PHASE_END) ∧
      (mkPhaseEvent t a s ts d ph).type =
        (if t = EventType.PHASE_START || t = EventType.PHASE_END then t
         else EventType.PHASE_START)) := by
  refine ⟨fun _ _ _ _ _ _ => rfl, fun _ _ _ _ _ _ => rfl, ?_, ?_⟩
  · intro t a s ts d nm inp res id
    constructor
    · cases t <;> simp [mkToolEvent]
    · rfl
  · intro t a s ts d ph
    constructor
    · cases t <;> simp [mkPhaseEvent]
    · rfl

/-! ## C3: dispatcher ordering -/

theorem buildHandler_globals {σ : Type} (regs : List (RegOp σ)) :
    ∀ h : StreamHandler σ,
      (regs.foldl regStep h).global_callbacks =
        h.global_callbacks ++ globalsOf regs := by
  induction regs with
  | nil => intro h; simp [globalsOf]
  | cons r rest ih =>
    intro h
    cases r with
    | onAll cb =>
      simp only [List.foldl_cons, ih, regStep, StreamHandler.on_all, globalsOf,
        List.filterMap_cons]
      simp [globalsOf]
    | onType t cb =>
      simp only [List.foldl_cons, ih, regStep, StreamHandler.on, globalsOf,
        List.filterMap_cons]

theorem buildHandler_kind {σ : Type} (regs : List (RegOp σ)) :
    ∀ (h : StreamHandler σ) (t : EventType),
      (regs.foldl regStep h).callbacks t = h.callbacks t ++ kindOf regs t := by
  induction regs with
  | nil => intro h t; simp [kindOf]
  | cons r rest ih =>
    intro h t
    cases r with
    | onAll cb =>
      simp only [List.foldl_cons, ih, regStep, StreamHandler.on_all, kindOf,
        List.filterMap_cons]
    | onType t' cb =>
      simp only [List.foldl_cons, ih, regStep, StreamHandler.on]
      by_cases ht : t = t'
      · subst ht
        simp [kindOf, List.filterMap_cons]
      · have ht' : ¬ t' = t := fun hh => ht hh.symm
        simp [kindOf, List.filterMap_cons, ht, ht']

/-- C3 (confirmed): for every event emitted through the dispatcher built
from any sequence of registration calls, `emit` runs exactly the
globally-registered callbacks first, in registration order, then the
callbacks registered for the event's kind, in registration order, each
awaited to completion sequentially (the state is threaded through the
callbacks one by one) before `emit` returns. -/
theorem c3_emit_order {σ : Type} (regs : List (RegOp σ)) (e : Event) (s : σ) :
    (buildHandler regs).emit e s =
      (globalsOf regs ++ kindOf regs e.type).foldl (fun st cb => cb e st) s := by
  show (buildHandler regs).emit e s = _
  rw [StreamHandler.emit, buildHandler, buildHandler_globals, buildHandler_kind,
    List.foldl_append]
  simp [StreamHandler.new]

/-! ## C1: text delta accumulation -/

theorem coderLoop_concat : ∀ (msgs : List (List ContentBlock)) (prev : String)
    (acc : List String) (rt : String),
    List.Chain' PrefixExt (prev :: msgs.map fullText) →
    strJoin ((msgs.foldl coderStep ⟨prev.length, acc, rt⟩).printed_deltas) =
      strJoin acc ++ strDrop ((msgs.map fullText).getLastD prev) prev.length := by
  intro msgs
  induction msgs with
  | nil =>
    intro prev acc rt _
    simp [strJoin, strDrop_length_self, String.append_empty]
  | cons m rest ih =>
    intro prev acc rt hchain
    simp only [List.map_cons, List.chain'_cons] at hchain
    obtain ⟨hpre, hchain'⟩ := hchain
    obtain ⟨suf, hsuf⟩ := hpre
    have hflen : (fullText m).length = prev.length + suf.length := by
      show (fullText m).data.length = prev.data.length + suf.length
      rw [← hsuf, List.length_append]
    rw [List.map_cons, List.foldl_cons, List.getLastD_cons]
    have hstep : coderStep ⟨prev.length, acc, rt⟩ m =
        if prev.length < (fullText m).length then
          (⟨(fullText m).length, acc ++ [strDrop (fullText m) prev.length],
            fullText m⟩ : CoderLoopState)
        else ⟨prev.length, acc, rt⟩ := by
      rw [coderStep]
      have hnl : ¬ (fullText m).length < prev.length := by omega
      rw [if_neg hnl]
    by_cases hlt : prev.length < (fullText m).length
    · rw [hstep, if_pos hlt]
      have hdelta : strDrop (fullText m) prev.length = String.mk suf :=
        strDrop_of_data_append hsuf.symm
      rw [hdelta, ih (fullText m) (acc ++ [String.mk suf]) (fullText m) hchain',
        strJoin_append_one]
      have hlast : (fullText m).data <+:
          ((rest.map fullText).getLastD (fullText m)).data :=
        chain_pfx_getLastD _ _ hchain'
      rw [strDrop_pfx_split hsuf.symm hlast, String.append_assoc]
    · have hsufnil : suf = [] := by
        have : suf.length = 0 := by omega
        exact List.length_eq_zero.mp this
      have hmeq : fullText m = prev := by
        apply strData_ext
        rw [← hsuf, hsufnil, List.append_nil]
      rw [hstep, if_neg hlt]
      have := ih prev acc rt (by rw [← hmeq]; exact hchain')
      rw [this, hmeq]

/-- C1 (corrected, amended part): for every sequence of assistant-style
messages whose concatenated text-bearing content is monotonically
non-decreasing (each full text a prefix-extension of the previous), the
concatenation of the suffix deltas computed by the coder agent's run loop
(the strings it prints when verbose without a stream handler) equals the
final message's full text, with no repeated and no missing characters.
(The translator's own `TextDelta` events instead carry each message's full
text — see the counterexample.) -/
theorem c1_coder_delta_concat (msgs : List (List ContentBlock))
    (h : List.Chain' PrefixExt (msgs.map fullText)) :
    strJoin (coderRun msgs).printed_deltas = (msgs.map fullText).getLastD "" := by
  have h' : List.Chain' PrefixExt ("" :: msgs.map fullText) := by
    cases hm : msgs.map fullText with
    | nil => simp
    | cons x xs =>
      rw [List.chain'_cons]
      exact ⟨ List.nil_prefix, hm ▸ h⟩
  have := coderLoop_concat msgs "" [] "" h'
  rw [coderRun]
  have hz : ("" : String).length = 0 := rfl
  rw [hz] at this
  rw [this, strDrop_zero]
  simp [strJoin, String.empty_append]

/-- C1 (corrected, counterexample): for the monotone prefix-extension
sequence of assistant messages with texts `"a"` then `"ab"`, the
translator emits `TextDelta` events whose texts concatenate to `"aab"`,
not to the final full text `"ab"` (the first message's character is
repeated): the events carry full snapshots, not suffix deltas. -/
theorem c1_counterexample :
    List.Chain' PrefixExt
      ([[ContentBlock.textBlock "a"], [ContentBlock.textBlock "ab"]].map fullText) ∧
    strJoin (textDeltaTexts
      (process_assistant "coder" "" [ContentBlock.textBlock "a"] ++
       process_assistant "coder" "" [ContentBlock.textBlock "ab"])) = "aab" ∧
    ([[ContentBlock.textBlock "a"], [ContentBlock.textBlock "ab"]].map
      fullText).getLastD "" = "ab" ∧
    ("aab" : String) ≠ "ab" := by
  refine ⟨?_, by decide, by decide, by decide⟩
  constructor
  · show (fullText [ContentBlock.textBlock "a"]).data <+:
      (fullText [ContentBlock.textBlock "ab"]).data
    exact ⟨['b'], by decide⟩
  · constructor

/-- Witness for `c1_coder_delta_concat` at a concrete chain:
texts `"ab"` then `"abc"` produce deltas concatenating to `"abc"`. -/
theorem c1_coder_delta_concat_witness :
    List.Chain' PrefixExt
      ([[ContentBlock.textBlock "ab"], [ContentBlock.textBlock "abc"]].map
        fullText) ∧
    strJoin (coderRun [[ContentBlock.textBlock "ab"],
      [ContentBlock.textBlock "abc"]]).printed_deltas = "abc" := by
  have hc : List.Chain' PrefixExt
      ([[ContentBlock.textBlock "ab"], [ContentBlock.textBlock "abc"]].map
        fullText) := by
    constructor
    · show (fullText [ContentBlock.textBlock "ab"]).data <+:
        (fullText [ContentBlock.textBlock "abc"]).data
      exact ⟨['c'], by decide⟩
    · constructor
  refine ⟨hc, ?_⟩
  rw [c1_coder_delta_concat _ hc]
  decide

/-! ## C5: tool result content flattening -/

/-- C5 (confirmed): a tool-result fragment whose content is a single
string emits a `ToolResult` event carrying that string verbatim; content
that is an ordered sequence of three text parts `[a, b, c]` emits
`a ++ "\n" ++ b ++ "\n" ++ c` (so `["a","b","c"]` yields `"a\nb\nc"` and
`"x"` yields `"x"`); and non-text parts anywhere in the sequence are
ignored by the flattening. -/
theorem c5_tool_result_flattening :
    (∀ a s id x, toolResultTexts
      (process_assistant a s [ContentBlock.toolResult (.str x) id]) = [x]) ∧
    (∀ a s id x y z, toolResultTexts
      (process_assistant a s [ContentBlock.toolResult
        (.parts [.textPart x, .textPart y, .textPart z]) id]) =
      [x ++ "\n" ++ y ++ "\n" ++ z]) ∧
    (∀ l1 l2, flattenToolContent (.parts (l1 ++ ResultPart.otherPart :: l2)) =
      flattenToolContent (.parts (l1 ++ l2))) := by
  refine ⟨?_, ?_, ?_⟩
  · intro a s id x
    simp [process_assistant, toolResultTexts, flattenToolContent, mkToolEvent,
      List.filterMap]
  · intro a s id x y z
    simp [process_assistant, toolResultTexts, flattenToolContent, mkToolEvent,
      List.filterMap, joinSep, ResultPart.textOf, String.append_assoc]
  · intro l1 l2
    simp [flattenToolContent, List.filterMap_append, List.filterMap_cons,
      ResultPart.textOf]

/-! ## C8: unrecognized message shapes -/

/-- C8 (confirmed): for every raw message whose shape the translator does
not recognize — not one of the known message variants and, for partial
stream events, no known event type (including a non-dict `.event`
payload) — processing raises no error and emits zero events. -/
theorem c8_unknown_shapes_ignored (a s : String) (m : Message)
    (h : unrecognizedShape m = true) : process a s m = .ok [] := by
  cases m with
  | system st d => simp [unrecognizedShape] at h
  | assistant c => simp [unrecognizedShape] at h
  | result st r => simp [unrecognizedShape] at h
  | unknown => rfl
  | streamEvent raw =>
    cases raw with
    | obj d =>
      simp only [unrecognizedShape, Bool.not_eq_true', Bool.or_eq_false_iff,
        decide_eq_false_iff_not] at h
      obtain ⟨h1, h2⟩ := h
      simp [process, process_stream_event, h1, h2]
    | null => rfl
    | bool b => rfl
    | num n => rfl
    | str s2 => rfl
    | arr l => rfl

/-- Witness for `c8_unknown_shapes_ignored`: a partial stream event with
the unknown event type `"mystery"` is ignored. -/
theorem c8_unknown_shapes_ignored_witness :
    unrecognizedShape (Message.streamEvent (.obj [("type", .str "mystery")])) =
      true ∧
    process "researcher" ""
      (Message.streamEvent (.obj [("type", .str "mystery")])) = .ok [] :=
  ⟨by decide, c8_unknown_shapes_ignored "researcher" "" _ (by decide)⟩

/-! ## C2: stage failure handling -/

/-- C2 (corrected, amended part): a researcher failure yields
`success = false` and `error = "Researcher agent failed"` with the planner
and coder never invoked; a planner failure yields `success = false` and
`error = "Planner agent failed"` with the coder never invoked; a coder
failure yields `success = false` but leaves `error` unset (`None`) — the
code returns the final `TaskResult` without a coder-specific label. -/
theorem c2_stage_failure_labels (wd : String) (fs : FS) (t : String)
    (ht : t.isEmpty = false) (rr : ResearchResult) (p : Plan) :
    (∀ (pf : String → Option Plan) (cf : Unit → Option CodeResult),
      run_task wd fs (some t) none (fun _ => none) pf cf =
        (⟨t, none, none, none, false, some "Researcher agent failed"⟩,
         ["researcher"], fs)) ∧
    (∀ cf : Unit → Option CodeResult,
      run_task wd fs (some t) none (fun _ => some rr) (fun _ => none) cf =
        (⟨t, some rr, none, none, false, some "Planner agent failed"⟩,
         ["researcher", "planner"],
         rr.save_to_dir (wd ++ "/research") fs)) ∧
    ((run_task wd fs (some t) none (fun _ => some rr) (fun _ => some p)
        (fun _ => none)).1 =
      ⟨t, some rr, some p, none, false, none⟩) := by
  refine ⟨?_, ?_, ?_⟩ <;>
    (first
      | intro pf cf
      | intro cf
      | skip) <;>
    simp [run_task, build_task_desc, pyTruthy, ht]

/-- C2 (corrected, counterexample): when the researcher and planner
succeed but the coder returns no result, the `TaskResult` has
`success = false` yet `error = None`, not the stage-specific label
`"Coder agent failed"` the claim requires. -/
theorem c2_counterexample :
    ((run_task "wd" emptyFS (some "do it") none
        (fun _ => some ⟨"", [], [], [], [], [], ""⟩)
        (fun _ => some ⟨"", [], [], [], [], [], ""⟩)
        (fun _ => none)).1.success = false) ∧
    ((run_task "wd" emptyFS (some "do it") none
        (fun _ => some ⟨"", [], [], [], [], [], ""⟩)
        (fun _ => some ⟨"", [], [], [], [], [], ""⟩)
        (fun _ => none)).1.error = none) ∧
    ((run_task "wd" emptyFS (some "do it") none
        (fun _ => some ⟨"", [], [], [], [], [], ""⟩)
        (fun _ => some ⟨"", [], [], [], [], [], ""⟩)
        (fun _ => none)).1.error ≠ some "Coder agent failed") :=
  ⟨rfl, rfl, by decide⟩

/-- Witness for `c2_stage_failure_labels` at a concrete task. -/
theorem c2_stage_failure_labels_witness :
    ("fix the bug" : String).isEmpty = false ∧
    (run_task "wd" emptyFS (some "fix the bug") none
        (fun _ => none) (fun _ => none) (fun _ => none) =
      (⟨"fix the bug", none, none, none, false,
        some "Researcher agent failed"⟩, ["researcher"], emptyFS)) :=
  ⟨rfl, (c2_stage_failure_labels "wd" emptyFS "fix the bug" rfl
    ⟨"", [], [], [], [], [], ""⟩ ⟨"", [], [], [], [], [], ""⟩).1
    (fun _ => none) (fun _ => none)⟩

/-! ## C4: terminal success from the coder stage -/

/-- C4 (confirmed): for every pipeline run in which the researcher and
planner return results, `TaskResult.success` equals the coder stage's
self-reported success flag, and is false when the coder returns no
result — researcher and planner success alone never makes it true. -/
theorem c4_success_from_coder (wd : String) (fs : FS) (t : String)
    (ht : t.isEmpty = false) (rr : ResearchResult) (p : Plan)
    (cr : Option CodeResult) :
    (run_task wd fs (some t) none (fun _ => some rr) (fun _ => some p)
        (fun _ => cr)).1.success =
      (match cr with | some c => c.success | none => false) := by
  simp [run_task, build_task_desc, pyTruthy, ht]

/-- Witness for `c4_success_from_coder`: a coder result reporting
`success = false` makes the task fail even though research and plan
succeeded. -/
theorem c4_success_from_coder_witness :
    ("add endpoint" : String).isEmpty = false ∧
    (run_task "wd" emptyFS (some "add endpoint") none
        (fun _ => some ⟨"", [], [], [], [], [], ""⟩)
        (fun _ => some ⟨"", [], [], [], [], [], ""⟩)
        (fun _ => some ⟨[], [], "", false, []⟩)).1.success = false :=
  ⟨rfl, c4_success_from_coder "wd" emptyFS "add endpoint" rfl
    ⟨"", [], [], [], [], [], ""⟩ ⟨"", [], [], [], [], [], ""⟩
    (some ⟨[], [], "", false, []⟩)⟩

/-! ## C6: tool-server configuration loading -/

theorem tw_append (name rest : List Char) (hnb : '}' ∉ name) :
    (name ++ '}' :: rest).takeWhile (· ≠ '}') = name ∧
    (name ++ '}' :: rest).dropWhile (· ≠ '}') = '}' :: rest := by
  induction name with
  | nil => simp [List.takeWhile, List.dropWhile]
  | cons c cs ih =>
    simp only [List.mem_cons, not_or] at hnb
    obtain ⟨h1, h2⟩ := hnb
    have hc : ¬ c = '}' := fun hh => h1 hh.symm
    have ih' := ih h2
    simp only [ne_eq, decide_not] at ih'
    constructor
    · rw [List.cons_append, List.takeWhile_cons]
      simp [hc, ih'.1]
    · rw [List.cons_append, List.dropWhile_cons]
      simp [hc, ih'.2]

theorem expandGo_congr (env : String → Option String) :
    ∀ (f1 : Nat) (l : List Char) (f2 : Nat), l.length ≤ f1 → l.length ≤ f2 →
      expandGo env f1 l = expandGo env f2 l := by
  intro f1
  induction f1 with
  | zero =>
    intro l f2 h1 h2
    have : l = [] := List.length_eq_zero.mp (Nat.le_zero.mp h1)
    subst this
    cases f2 <;> rfl
  | succ f1' ih =>
    intro l f2 h1 h2
    cases l with
    | nil => cases f2 <;> rfl
    | cons c rest =>
      cases f2 with
      | zero => simp at h2
      | succ f2' =>
        simp only [List.length_cons, Nat.succ_le_succ_iff] at h1 h2
        simp only [expandGo]
        by_cases hc : c = '$'
        · simp only [hc, if_true]
          cases rest with
          | nil =>
            rw [ih [] f2' (by simp) (by simp)]
          | cons c2 rest2 =>
            simp only [List.length_cons] at h1 h2
            by_cases hc2 : c2 = '{'
            · simp only [hc2, if_true]
              cases hdd : rest2.dropWhile (· ≠ '}') with
              | nil => rfl
              | cons x tail =>
                have hlen := (List.dropWhile_sublist (l := rest2)
                  (fun ch => decide (ch ≠ '}'))).length_le
                rw [hdd] at hlen
                simp only [List.length_cons] at hlen
                by_cases hnm : (rest2.takeWhile (· ≠ '}')).isEmpty
                · simp only [hnm, if_true]
                  rw [ih tail f2' (by omega) (by omega)]
                · simp only [hnm, if_false]
                  rw [ih tail f2' (by omega) (by omega)]
            · simp only [hc2, if_false]
              rw [ih (c2 :: rest2) f2' (by simp; omega) (by simp; omega)]
        · simp only [hc, if_false]
          rw [ih rest f2' (by omega) (by omega)]

theorem expandChars_placeholder (env : String → Option String)
    (name rest : List Char) (hne : name ≠ []) (hnb : '}' ∉ name) :
    expandChars env ('$' :: '{' :: (name ++ '}' :: rest)) =
      ((env (String.mk name)).getD "").data ++ expandChars env rest := by
  obtain ⟨htake, hdrop⟩ := tw_append name rest hnb
  have hne' : name.isEmpty = false := by
    cases name with
    | nil => exact absurd rfl hne
    | cons a b => rfl
  show expandGo env (('$' :: '{' :: (name ++ '}' :: rest)).length) _ = _
  simp only [List.length_cons, expandGo, if_true]
  rw [hdrop, htake]
  simp only [hne', Bool.false_eq_true, if_false]
  rw [expandGo_congr env ((name ++ '}' :: rest).length + 1) rest rest.length
    (by simp; omega) (le_refl _)]
  rfl

/-- C6 (corrected, amended part): loading yields the empty "no tool
servers" configuration with a printed warning when the file is unreadable
or not valid JSON, and the empty configuration silently when the file is
absent; and for a `${VAR}` placeholder in an `env` (or `headers`) value,
the placeholder is replaced by the process environment variable's value,
a missing variable being replaced by the empty string rather than causing
an error.  (Valid JSON of unexpected shape can still raise — see the
counterexample.) -/
theorem c6_mcp_load (penv : String → Option String) (name : List Char)
    (hne : name ≠ []) (hnb : '}' ∉ name) :
    (load_mcp_config penv .malformed = .ok ⟨[], true⟩) ∧
    (load_mcp_config penv .missing = .ok ⟨[], false⟩) ∧
    (∀ rest : List Char,
      expand_env_vars penv (String.mk ('$' :: '{' :: (name ++ '}' :: rest))) =
        String.mk (((penv (String.mk name)).getD "").data ++
          expandChars penv rest)) ∧
    (∀ nm k : String,
      load_mcp_config penv (.parsed (.obj [("mcpServers", .obj [(nm,
          .obj [("env", .obj [(k,
            .str (String.mk ('$' :: '{' :: (name ++ ['}'])))
          )])])])])) =
        .ok ⟨[(nm, .obj [("env", .obj [(k,
          .str ((penv (String.mk name)).getD ""))])])], false⟩) := by
  refine ⟨rfl, rfl, ?_, ?_⟩
  · intro rest
    show String.mk (expandChars penv ('$' :: '{' :: (name ++ '}' :: rest))) = _
    rw [expandChars_placeholder penv name rest hne hnb]
  · intro nm k
    have hx : expand_env_vars penv
        (String.mk ('$' :: '{' :: (name ++ ['}']))) =
        (penv (String.mk name)).getD "" := by
      show String.mk (expandChars penv ('$' :: '{' :: (name ++ '}' :: []))) = _
      rw [expandChars_placeholder penv name [] hne hnb]
      rw [show expandChars penv ([] : List Char) = [] from rfl, List.append_nil]
    have hbase : load_mcp_config penv (.parsed (.obj [("mcpServers", .obj [(nm,
        .obj [("env", .obj [(k,
          .str (String.mk ('$' :: '{' :: (name ++ ['}'])))
        )])])])])) =
        .ok ⟨[(nm, .obj [("env", .obj [(k,
          .str (expand_env_vars penv
            (String.mk ('$' :: '{' :: (name ++ ['}'])))))])])], false⟩ := rfl
    rw [hbase, hx]

/-- C6 (corrected, counterexample): a configuration file containing the
valid JSON document `[]` (not an object) makes `load_mcp_config` raise
`AttributeError` (`config.get` on a list), which the `except` clause does
not catch — loading does not degrade to "no tool servers" for every file
content. -/
theorem c6_counterexample :
    load_mcp_config (fun _ => none) (.parsed (.arr [])) =
      .error "AttributeError" := rfl

/-- Witness for `c6_mcp_load`: expanding `"${TOKEN}"` with `TOKEN` bound
to `"secret"` yields `"secret"`, and a server entry's `env` value is
expanded inside the loaded configuration. -/
theorem c6_mcp_load_witness :
    ("TOKEN".data ≠ [] ∧ '}' ∉ "TOKEN".data) ∧
    expand_env_vars (fun v => if v = "TOKEN" then some "secret" else none)
      "${TOKEN}" = "secret" ∧
    load_mcp_config (fun v => if v = "TOKEN" then some "secret" else none)
      (.parsed (.obj [("mcpServers", .obj [("gh",
        .obj [("env", .obj [("API_KEY", .str "${TOKEN}")])])])])) =
      .ok ⟨[("gh", .obj [("env", .obj [("API_KEY", .str "secret")])])], false⟩ := by
  have h := c6_mcp_load (fun v => if v = "TOKEN" then some "secret" else none)
    "TOKEN".data (by decide) (by decide)
  refine ⟨⟨by decide, by decide⟩, ?_, ?_⟩
  · exact h.2.2.1 []
  · exact h.2.2.2 "gh" "API_KEY"

/-! ## C7: artifact persist/load round-trip -/

theorem decodeStrListAux_map (l : List String) :
    decodeStrListAux (l.map .str) = some l := by
  induction l with
  | nil => rfl
  | cons x xs ih => simp [decodeStrListAux, ih]

theorem decodeDictListAux_map (l : List Dict) :
    decodeDictListAux (l.map .obj) = some l := by
  induction l with
  | nil => rfl
  | cons x xs ih => simp [decodeDictListAux, ih]

theorem decodePlan_planToJ (p : Plan) : decodePlan (planToJ p) = some p := by
  simp [decodePlan, planToJ, dget, kwField, decodeStrList, asStr,
    decodeStrListAux_map]

theorem decodeResearch_researchToJ (r : ResearchResult) :
    decodeResearch (researchToJ r) = some r := by
  simp [decodeResearch, researchToJ, dget, kwField, decodeStrList, asStr,
    decodeStrListAux_map, decodeDictList, decodeDictListAux_map]

theorem append_ne_of_data_ne (d : String) {a b : String}
    (h : a.data ≠ b.data) : ¬ (d ++ a = d ++ b) := by
  intro he
  apply h
  have hd : (d ++ a).data = (d ++ b).data := congrArg String.data he
  rw [String.data_append, String.data_append] at hd
  exact List.append_cancel_left hd

/-- C7 (confirmed): persisting any `Plan` or any `ResearchResult` (with
arbitrarily populated string and list fields) to a directory and loading
it back from that directory yields a value equal to the original in all
fields. -/
theorem c7_artifact_roundtrip :
    (∀ (p : Plan) (dir : String) (fs : FS),
      Plan.load_from_dir dir (p.save_to_dir dir fs) = some p) ∧
    (∀ (r : ResearchResult) (dir : String) (fs : FS),
      ResearchResult.load_from_dir dir (r.save_to_dir dir fs) = some r) := by
  constructor
  · intro p dir fs
    show (match (p.save_to_dir dir fs) (dir ++ "/plan.json") with
      | some (.jsonDoc v) => decodePlan v
      | _ => none) = some p
    rw [Plan.save_to_dir]
    show (match (if dir ++ "/plan.json" = dir ++ "/plan.md" then
        some (FileContent.textDoc p.to_prompt)
      else if dir ++ "/plan.json" = dir ++ "/plan.json" then
        some (FileContent.jsonDoc (planToJ p))
      else fs (dir ++ "/plan.json")) with
      | some (.jsonDoc v) => decodePlan v
      | _ => none) = some p
    rw [if_neg (append_ne_of_data_ne dir (by decide)), if_pos rfl]
    exact decodePlan_planToJ p
  · intro r dir fs
    show (match (r.save_to_dir dir fs) (dir ++ "/research.json") with
      | some (.jsonDoc v) => decodeResearch v
      | _ => none) = some r
    rw [ResearchResult.save_to_dir]
    show (match (if dir ++ "/research.json" = dir ++ "/research.md" then
        some (FileContent.textDoc r.to_prompt)
      else if dir ++ "/research.json" = dir ++ "/research.json" then
        some (FileContent.jsonDoc (researchToJ r))
      else fs (dir ++ "/research.json")) with
      | some (.jsonDoc v) => decodeResearch v
      | _ => none) = some r
    rw [if_neg (append_ne_of_data_ne dir (by decide)), if_pos rfl]
    exact decodeResearch_researchToJ r

/-! ## C9: JSON-lines renderer -/

/-- C9 (corrected, amended part): for every event, the JSON-lines
renderer writes exactly one JSON object as one line, flushed, whose
fields are `type` (the string form of the kind), `agent` and `timestamp`
followed by the kind-appropriate payload keys — `text` for text deltas,
`tool` for tool events with `input` present only when the tool input is
non-empty and `result` only when the tool result is non-empty, `thinking`
for thinking events, `phase` for phase events, and a catch-all `data`
otherwise. -/
theorem c9_json_line (e : Event) :
    handle_json e =
      [OutLine.mk ([("type", .str e.type.value),
          ("agent", .str e.agent_name),
          ("timestamp", .num e.timestamp)] ++ payloadSpec e) true] := by
  cases e with
  | text te => rfl
  | tool te =>
    simp only [handle_json, jsonFields, payloadSpec]
    cases hinp : te.tool_input with
    | nil =>
      have : te.tool_input.isEmpty = true := by rw [hinp]; rfl
      simp [this, hinp]
      by_cases hres : te.tool_result = ""
      · simp [hres, String.isEmpty_iff]
      · have : te.tool_result.isEmpty = false := by
          cases hh : te.tool_result.isEmpty
          · rfl
          · exact absurd ((String.isEmpty_iff te.tool_result).mp hh) hres
        simp [this, hres]
    | cons kv rest =>
      have : te.tool_input.isEmpty = false := by rw [hinp]; rfl
      simp [this, hinp]
      by_cases hres : te.tool_result = ""
      · simp [hres, String.isEmpty_iff]
      · have : te.tool_result.isEmpty = false := by
          cases hh : te.tool_result.isEmpty
          · rfl
          · exact absurd ((String.isEmpty_iff te.tool_result).mp hh) hres
        simp [this, hres]
  | thinking te => rfl
  | phase pe => rfl
  | progress pe => rfl
  | base be => rfl

/-- C9 (corrected, counterexample): a tool event with empty `tool_input`
and empty `tool_result` (exactly what a streamed `content_block_start`
tool-use produces) is rendered without the `input` and `result` keys, so
the line does not contain all of `tool`, `input` and `result` as the
claim requires. -/
theorem c9_counterexample :
    ¬ ("input" ∈ (jsonFields (Event.tool (mkToolEvent EventType.TOOL_START
      "coder" "" 0 [] "Bash" [] "" "id1"))).map Prod.fst) ∧
    ¬ ("result" ∈ (jsonFields (Event.tool (mkToolEvent EventType.TOOL_START
      "coder" "" 0 [] "Bash" [] "" "id1"))).map Prod.fst) ∧
    ("tool" ∈ (jsonFields (Event.tool (mkToolEvent EventType.TOOL_START
      "coder" "" 0 [] "Bash" [] "" "id1"))).map Prod.fst) := by
  refine ⟨?_, ?_, ?_⟩ <;> decide
